import Mathlib

/-!
Verification development for the sakin-go SIEM/SOAR core.

Shallow embedding of the Go sources:
* `pkg/models/types.go` — the canonical `Event`, `Alert`, `Rule` records.
* `pkg/messaging` — NATS topic constants and subject construction.
* `cmd/sge-ingest` — HTTP event handler and normalizer.
* `cmd/sge-enrichment` — GeoIP / threat-intel enrichment worker.
* `cmd/sge-correlation` — rule engine.
* `internal/dpi/protocol_parsers.go` — port-scan and beacon trackers.
* `cmd/sge-network-sensor/dpi/tls.go` — TLS ClientHello / SNI parser.

Modelling conventions: Go strings are `String`, byte slices are `List Nat`
(values < 256 in real runs; theorems quantify over arbitrary lists, a
superset), `time.Time`/`time.Duration` are `Int` nanoseconds, Go `map`s are
association lists with replace-or-append assignment (a determinization of
the unordered Go map), and fallible operations return `Option`/`Except`.
Go `float64` arithmetic in the trackers is idealized by exact rational
arithmetic (`ℚ`), with `math.Sqrt` idealized by the integer square root;
the claims proved below do not depend on floating-point rounding.
-/

set_option maxRecDepth 100000

namespace SakinGo

/-- Dynamic Go values (`interface` values) stored in an Event's `metadata`
and `enrichment` maps: the core stores strings, integers and booleans. -/
inductive GoVal where
  | vStr (s : String)
  | vInt (n : Int)
  | vBool (b : Bool)
deriving Repr, DecidableEq

/-- Go map assignment `m[k] = v`, determinized on an association list:
replace the binding of `k` if present, otherwise append it. -/
def setKey (m : List (String × GoVal)) (k : String) (v : GoVal) :
    List (String × GoVal) :=
  match m with
  | [] => [(k, v)]
  | (k0, v0) :: rest => if k0 = k then (k, v) :: rest else (k0, v0) :: setKey rest k v

/-- Go map read `m[k]` on the association-list model. -/
def getKey (m : List (String × GoVal)) (k : String) : Option GoVal :=
  match m with
  | [] => none
  | (k0, v0) :: rest => if k0 = k then some v0 else getKey rest k

/-- Canonical event record, from `pkg/models/types.go` (`models.Event`).
`Severity`, `EventStatus` are Go string types, so both are `String` here;
`Timestamp` is `Int` nanoseconds since epoch. -/
structure Event where
  id : String
  timestamp : Int
  source : String
  sourceIP : String
  destIP : String
  eventType : String
  severity : String
  status : String
  description : String
  rawLog : String
  metadata : List (String × GoVal)
  tags : List String
  enrichment : List (String × GoVal)
deriving Repr, DecidableEq

/-- Rank of a severity string under the documented ordering
`info < low < medium < high < critical` (`pkg/models/types.go` constants). -/
def sevRank (s : String) : Option Nat :=
  if s = "info" then some 0
  else if s = "low" then some 1
  else if s = "medium" then some 2
  else if s = "high" then some 3
  else if s = "critical" then some 4
  else none

/-- `messaging.TopicEventsRaw` from `pkg/messaging` topic constants.
The Go constant is the subscription filter `"events.raw.>"`, wildcard
included. -/
def TopicEventsRaw : String := "events.raw.>"

/-- `messaging.TopicEventsEnriched` from `pkg/messaging`. -/
def TopicEventsEnriched : String := "events.enriched.>"

/-- `messaging.TopicAlerts` from `pkg/messaging`. -/
def TopicAlerts : String := "alerts.>"

/-- Subject built by the ingest HTTP handler
(`cmd/sge-ingest/handlers/http_handler.go`):
`subject := messaging.TopicEventsRaw + string(evt.Severity) + "." + evt.Source`. -/
def ingestSubject (evt : Event) : String :=
  TopicEventsRaw ++ evt.severity ++ "." ++ evt.source

/-- Subject built by the enrichment worker before republish
(`cmd/sge-enrichment` main):
`subject := messaging.TopicEventsEnriched + string(evt.Severity) + "." + evt.Source`. -/
def enrichedSubject (evt : Event) : String :=
  TopicEventsEnriched ++ evt.severity ++ "." ++ evt.source

/-- Subject built by the correlation engine for an alert
(`cmd/sge-correlation/main.go`):
`subject := messaging.TopicAlerts + string(alert.Severity) + "." + r.ID`. -/
def alertSubject (severity ruleId : String) : String :=
  TopicAlerts ++ severity ++ "." ++ ruleId

/-- Threat-intel reputation (`cmd/sge-enrichment/intel/provider.go`). -/
structure Reputation where
  ip : String
  score : Int
  isMalicious : Bool
  source : String
deriving Repr, DecidableEq

/-- GeoIP lookup result (country, city, ISO code) as used by the
enrichment worker. -/
structure GeoLocation where
  country : String
  city : String
  iso : String
deriving Repr, DecidableEq

/-- The enrichment transform applied by the enrichment worker's message
handler (`cmd/sge-enrichment` main, enrichment logic in the
`QueueSubscribe` callback).  `geo` is the result of `geoProvider.Lookup`
(nil = `none`) and `rep` the result of `intelProvider.CheckIP` (the error
is discarded in the source; a nil reputation is `none`). -/
def enrichEvent (evt : Event) (geo : Option GeoLocation) (rep : Option Reputation) :
    Event :=
  if evt.sourceIP ≠ "" then
    let evt1 :=
      match geo with
      | some loc =>
          let en1 := setKey evt.enrichment "src_geo_country" (GoVal.vStr loc.country)
          let en2 := setKey en1 "src_geo_city" (GoVal.vStr loc.city)
          let en3 := setKey en2 "src_geo_iso" (GoVal.vStr loc.iso)
          { evt with enrichment := en3 }
      | none => evt
    match rep with
    | some r =>
        if r.isMalicious then
          let en4 := setKey evt1.enrichment "threat_intel_score" (GoVal.vInt r.score)
          let en5 := setKey en4 "threat_intel_source" (GoVal.vStr r.source)
          { evt1 with
              enrichment := en5,
              severity := "critical",
              tags := evt1.tags ++ ["malicious_ip"] }
        else evt1
    | none => evt1
  else evt

/-- An action performed against the message bus by a consumer handler. -/
inductive BusAction where
  | ack
  | publish (subject : String) (accepted : Bool)
deriving Repr, DecidableEq

/-- Ordered trace of bus actions performed by the enrichment worker's
message handler for one delivered message
(`cmd/sge-enrichment` main): the source reads `msg.Ack()` first, then
unmarshals (returning early on failure), enriches, and finally calls
`nc.PublishAsync` whose result is discarded.  `parsed` is the
`json.Unmarshal` outcome and `publishAccepted` whether the async publish
buffer accepted the message. -/
def enrichHandler (parsed : Option Event) (geo : Option GeoLocation)
    (rep : Option Reputation) (publishAccepted : Bool) : List BusAction :=
  BusAction.ack ::
    (match parsed with
     | none => []
     | some evt =>
         let out := enrichEvent evt geo rep
         [BusAction.publish (enrichedSubject out) publishAccepted])

/-- Lemma: reading the key just written returns the written value. -/
theorem getKey_setKey_self (m : List (String × GoVal)) (k : String) (v : GoVal) :
    getKey (setKey m k v) k = some v := by
  induction m with
  | nil => simp [setKey, getKey]
  | cons hd tl ih =>
      obtain ⟨k0, v0⟩ := hd
      by_cases h : k0 = k
      · simp [setKey, getKey, h]
      · simp [setKey, getKey, h, ih]

/-- Lemma: writing a different key leaves a read unchanged. -/
theorem getKey_setKey_ne (m : List (String × GoVal)) (k k' : String) (v : GoVal)
    (h : k' ≠ k) : getKey (setKey m k' v) k = getKey m k := by
  induction m with
  | nil => simp [setKey, getKey, h]
  | cons hd tl ih =>
      obtain ⟨k0, v0⟩ := hd
      by_cases h0 : k0 = k'
      · subst h0
        simp [setKey, getKey, h]
      · by_cases h1 : k0 = k
        · simp [setKey, getKey, h0, h1, Ne.symm h]
        · simp [setKey, getKey, h0, h1, ih]

/-- Lemma: every defined severity rank is at most the rank of critical. -/
theorem sevRank_le_four (s : String) (r : Nat) (h : sevRank s = some r) : r ≤ 4 := by
  by_cases h0 : s = "info"
  · simp [sevRank, h0] at h
    omega
  by_cases h1 : s = "low"
  · simp [sevRank, h0, h1] at h
    omega
  by_cases h2 : s = "medium"
  · simp [sevRank, h0, h1, h2] at h
    omega
  by_cases h3 : s = "high"
  · simp [sevRank, h0, h1, h2, h3] at h
    omega
  by_cases h4 : s = "critical"
  · simp [sevRank, h0, h1, h2, h3, h4] at h
    omega
  · simp [sevRank, h0, h1, h2, h3, h4] at h

/-- The normalizer of the ingest gateway
(`cmd/sge-ingest/normalizer`, `NormalizeAgentEvent`): the payload has
already been unmarshalled into a generic map; a fresh id
(`utils.GenerateID()`, passed as `freshId`) and the current UTC time
(`time.Now().UTC()`, passed as `now`) are always assigned, `Source`
defaults to `"agent"`, `Status` is `new`, and only the string-typed
`source`, `event_type` and `severity` payload fields are projected. -/
def normalizeAgentEvent (rawMap : List (String × GoVal)) (freshId : String)
    (now : Int) : Event :=
  let base : Event :=
    { id := freshId, timestamp := now, source := "agent", sourceIP := "", destIP := "",
      eventType := "", severity := "", status := "new", description := "", rawLog := "",
      metadata := [], tags := [], enrichment := [] }
  let e1 :=
    match getKey rawMap "source" with
    | some (GoVal.vStr s) => { base with source := s }
    | _ => base
  let e2 :=
    match getKey rawMap "event_type" with
    | some (GoVal.vStr s) => { e1 with eventType := s }
    | _ => e1
  match getKey rawMap "severity" with
  | some (GoVal.vStr s) => { e2 with severity := s }
  | _ => e2

/-- The ingest HTTP handler (`cmd/sge-ingest/handlers/http_handler.go`,
`HandleHTTPEvent`): `parsedBody` is the `json.Unmarshal` outcome inside
`NormalizeAgentEvent` (`none` = parse error), `publishAccepted` whether
`PublishAsync` accepted the message.  Result: HTTP status and the subject
passed to `PublishAsync` (`none` when nothing was handed to the bus). -/
def handleHTTPEvent (parsedBody : Option (List (String × GoVal))) (freshId : String)
    (now : Int) (publishAccepted : Bool) : Nat × Option String :=
  match parsedBody with
  | none => (400, none)
  | some m =>
      let evt := normalizeAgentEvent m freshId now
      let subject := ingestSubject evt
      if publishAccepted then (202, some subject) else (500, some subject)

/-- The raw event of the spec's severity-escalation seed scenario. -/
def evtE1 : Event :=
  { id := "E1", timestamp := 0, source := "agent", sourceIP := "1.2.3.4",
    destIP := "", eventType := "", severity := "info", status := "new",
    description := "", rawLog := "", metadata := [], tags := [], enrichment := [] }

/-- The reputation the mock provider returns for `1.2.3.4`
(`cmd/sge-enrichment/intel/provider.go`). -/
def repMock : Reputation :=
  { ip := "1.2.3.4", score := 100, isMalicious := true, source := "MockDB" }

/-- C1: for every consumed event whose source IP gets a malicious
threat-intel verdict, the republished event has severity `critical`,
enrichment keys `threat_intel_score` and `threat_intel_source` set, and tag
`malicious_ip` appended; and for every event flowing raw to enriched the
severity never drops under the ordering info<low<medium<high<critical. -/
theorem enrichment_malicious_escalation_and_monotone :
    (∀ (evt : Event) (geo : Option GeoLocation) (rep : Reputation),
      evt.sourceIP ≠ "" → rep.isMalicious = true →
        (enrichEvent evt geo (some rep)).severity = "critical" ∧
        getKey (enrichEvent evt geo (some rep)).enrichment "threat_intel_score"
          = some (GoVal.vInt rep.score) ∧
        getKey (enrichEvent evt geo (some rep)).enrichment "threat_intel_source"
          = some (GoVal.vStr rep.source) ∧
        (enrichEvent evt geo (some rep)).tags = evt.tags ++ ["malicious_ip"]) ∧
    (∀ (evt : Event) (geo : Option GeoLocation) (rep : Option Reputation) (r : Nat),
      sevRank evt.severity = some r →
        ∃ r2, sevRank (enrichEvent evt geo rep).severity = some r2 ∧ r ≤ r2) := by
  constructor
  · intro evt geo rep hip hmal
    cases geo with
    | none =>
        refine ⟨by simp [enrichEvent, hip, hmal], ?_, ?_, by simp [enrichEvent, hip, hmal]⟩
        · simp only [enrichEvent, hmal, ite_true]
          rw [if_pos hip]
          rw [getKey_setKey_ne _ _ _ _ (by decide), getKey_setKey_self]
        · simp only [enrichEvent, hmal, ite_true]
          rw [if_pos hip]
          rw [getKey_setKey_self]
    | some loc =>
        refine ⟨by simp [enrichEvent, hip, hmal], ?_, ?_, by simp [enrichEvent, hip, hmal]⟩
        · simp only [enrichEvent, hmal, ite_true]
          rw [if_pos hip]
          rw [getKey_setKey_ne _ _ _ _ (by decide), getKey_setKey_self]
        · simp only [enrichEvent, hmal, ite_true]
          rw [if_pos hip]
          rw [getKey_setKey_self]
  · intro evt geo rep r hr
    by_cases hip : evt.sourceIP = ""
    · exact ⟨r, by simp [enrichEvent, hip, hr], le_refl r⟩
    cases rep with
    | none =>
        cases geo with
        | none => exact ⟨r, by simp [enrichEvent, hip, hr], le_refl r⟩
        | some loc => exact ⟨r, by simp [enrichEvent, hip, hr], le_refl r⟩
    | some rp =>
        by_cases hm : rp.isMalicious
        · refine ⟨4, ?_, sevRank_le_four _ _ hr⟩
          cases geo <;> simp [enrichEvent, hip, hm, sevRank]
        · cases geo with
          | none => exact ⟨r, by simp [enrichEvent, hip, hm, hr], le_refl r⟩
          | some loc => exact ⟨r, by simp [enrichEvent, hip, hm, hr], le_refl r⟩

/-- Witness for C1 at the seed scenario event: severity `info` raw event
from `1.2.3.4` enriched under the mock malicious verdict. -/
theorem enrichment_malicious_escalation_witness :
    (enrichEvent evtE1 none (some repMock)).severity = "critical" ∧
    getKey (enrichEvent evtE1 none (some repMock)).enrichment "threat_intel_score"
      = some (GoVal.vInt 100) ∧
    getKey (enrichEvent evtE1 none (some repMock)).enrichment "threat_intel_source"
      = some (GoVal.vStr "MockDB") ∧
    (enrichEvent evtE1 none (some repMock)).tags = ["malicious_ip"] ∧
    (∃ r2, sevRank (enrichEvent evtE1 none (some repMock)).severity = some r2 ∧ 0 ≤ r2) := by
  obtain ⟨h1, h2⟩ := enrichment_malicious_escalation_and_monotone
  have ha := h1 evtE1 none repMock (by decide) rfl
  have hb := h2 evtE1 none (some repMock) 0 (by decide)
  exact ⟨ha.1, ha.2.1, ha.2.2.1, by simpa using ha.2.2.2, hb⟩

/-- C5 counterexample: the enrichment handler acknowledges first; even when
the publish buffer rejects the enriched message (`accepted = false`), the
trace starts with the ack. -/
theorem enrich_ack_despite_publish_failure :
    enrichHandler (some evtE1) none none false =
      [BusAction.ack, BusAction.publish "events.enriched.>info.agent" false] ∧
    BusAction.ack ∈ enrichHandler (some evtE1) none none false := by
  constructor
  · rfl
  · simp [enrichHandler]

/-- C5 amended: the enrichment handler acknowledges the source message
immediately on receipt — the very first bus action, before enrichment and
before the publish, regardless of the publish outcome. -/
theorem enrich_ack_always_first :
    ∀ (parsed : Option Event) (geo : Option GeoLocation)
      (rep : Option Reputation) (pub : Bool),
      (enrichHandler parsed geo rep pub).head? = some BusAction.ack := by
  intro parsed geo rep pub
  rfl

/-- C2: the subjects the core actually publishes to embed the `>` wildcard
character, because the Go topic constants (`"events.raw.>"` etc., meant as
subscription filters) are concatenated directly with severity and source.
Evaluated at the seed event (severity `info`, source `agent`) and at the
demo rule `rule-001` with severity `critical`. -/
theorem subjects_contain_wildcard :
    ingestSubject evtE1 = "events.raw.>info.agent" ∧
    enrichedSubject evtE1 = "events.enriched.>info.agent" ∧
    alertSubject "critical" "rule-001" = "alerts.>critical.rule-001" ∧
    Char.mk 62 (by decide) ∈ (ingestSubject evtE1).toList ∧
    Char.mk 62 (by decide) ∈ (alertSubject "critical" "rule-001").toList := by
  refine ⟨rfl, rfl, rfl, ?_, ?_⟩ <;> decide

/-- C3 counterexample: with the publish buffer full, the ingest handler
responds 500 (`c.Status(500)` in the source), not 503. -/
theorem ingest_buffer_full_returns_500 :
    (handleHTTPEvent (some []) "F" 0 false).1 = 500 ∧
    (handleHTTPEvent (some []) "F" 0 false).1 ≠ 503 := by
  decide

/-- C3 amended: unparseable body gives 400 with nothing handed to the bus;
an accepted publish gives 202; a full publish buffer gives 500 (a 5xx, but
not the 503 the claim states). -/
theorem ingest_status_codes :
    ∀ (body : Option (List (String × GoVal))) (f : String) (t : Int) (pub : Bool),
      (body = none → handleHTTPEvent body f t pub = (400, none)) ∧
      (∀ m, body = some m → pub = true → (handleHTTPEvent body f t pub).1 = 202) ∧
      (∀ m, body = some m → pub = false → (handleHTTPEvent body f t pub).1 = 500) := by
  intro body f t pub
  refine ⟨?_, ?_, ?_⟩
  · intro h
    subst h
    rfl
  · intro m hm hp
    subst hm
    subst hp
    rfl
  · intro m hm hp
    subst hm
    subst hp
    rfl

/-- Witness for C3 exercising all three response paths at concrete inputs. -/
theorem ingest_status_codes_witness :
    handleHTTPEvent none "F" 0 true = (400, none) ∧
    (handleHTTPEvent (some []) "F" 0 true).1 = 202 ∧
    (handleHTTPEvent (some []) "F" 0 false).1 = 500 := by
  refine ⟨(ingest_status_codes none "F" 0 true).1 rfl,
    (ingest_status_codes (some []) "F" 0 true).2.1 [] rfl rfl,
    (ingest_status_codes (some []) "F" 0 false).2.2 [] rfl rfl⟩

/-- A payload supplying its own id, timestamp, source_ip and an extra field. -/
def payloadX : List (String × GoVal) :=
  [("id", GoVal.vStr "E9"), ("timestamp", GoVal.vStr "2020-01-01T00:00:00Z"),
   ("source_ip", GoVal.vStr "9.9.9.9"), ("foo", GoVal.vStr "bar")]

/-- C4 counterexample: the normalizer ignores a supplied id and timestamp,
does not project `source_ip`, and keeps no remaining fields in metadata. -/
theorem normalize_drops_fields_cex :
    (normalizeAgentEvent payloadX "FRESH" 5).id = "FRESH" ∧
    (normalizeAgentEvent payloadX "FRESH" 5).id ≠ "E9" ∧
    (normalizeAgentEvent payloadX "FRESH" 5).timestamp = 5 ∧
    (normalizeAgentEvent payloadX "FRESH" 5).sourceIP = "" ∧
    (normalizeAgentEvent payloadX "FRESH" 5).metadata = [] := by
  decide

/-- C4 amended: the normalizer always assigns the fresh id and current
timestamp (supplied ones are ignored), sets status `new`, projects only the
string-typed `source` (default `"agent"`), `event_type` and `severity`
fields, and leaves `source_ip`, `dest_ip` and `metadata` empty — remaining
payload fields are dropped, not preserved. -/
theorem normalize_behaviour :
    ∀ (m : List (String × GoVal)) (freshId : String) (now : Int),
      (normalizeAgentEvent m freshId now).id = freshId ∧
      (normalizeAgentEvent m freshId now).timestamp = now ∧
      (normalizeAgentEvent m freshId now).status = "new" ∧
      (normalizeAgentEvent m freshId now).sourceIP = "" ∧
      (normalizeAgentEvent m freshId now).destIP = "" ∧
      (normalizeAgentEvent m freshId now).metadata = [] ∧
      (∀ s, getKey m "source" = some (GoVal.vStr s) →
        (normalizeAgentEvent m freshId now).source = s) ∧
      (getKey m "source" = none →
        (normalizeAgentEvent m freshId now).source = "agent") ∧
      (∀ s, getKey m "event_type" = some (GoVal.vStr s) →
        (normalizeAgentEvent m freshId now).eventType = s) ∧
      (∀ s, getKey m "severity" = some (GoVal.vStr s) →
        (normalizeAgentEvent m freshId now).severity = s) := by
  intro m freshId now
  unfold normalizeAgentEvent
  refine ⟨?_, ?_, ?_, ?_, ?_, ?_, ?_, ?_, ?_, ?_⟩
  · repeat' split
    all_goals rfl
  · repeat' split
    all_goals rfl
  · repeat' split
    all_goals rfl
  · repeat' split
    all_goals rfl
  · repeat' split
    all_goals rfl
  · repeat' split
    all_goals rfl
  · intro s h
    rw [h]
    repeat' split
    all_goals simp_all
  · intro h
    rw [h]
    repeat' split
    all_goals simp_all
  · intro s h
    rw [h]
    repeat' split
    all_goals simp_all
  · intro s h
    rw [h]

/-- Witness for C4 at a concrete payload carrying all three projected fields. -/
theorem normalize_behaviour_witness :
    (normalizeAgentEvent [("source", GoVal.vStr "fw"), ("event_type", GoVal.vStr "conn"),
        ("severity", GoVal.vStr "high")] "ID1" 7).source = "fw" ∧
    (normalizeAgentEvent [("source", GoVal.vStr "fw"), ("event_type", GoVal.vStr "conn"),
        ("severity", GoVal.vStr "high")] "ID1" 7).eventType = "conn" ∧
    (normalizeAgentEvent [("source", GoVal.vStr "fw"), ("event_type", GoVal.vStr "conn"),
        ("severity", GoVal.vStr "high")] "ID1" 7).severity = "high" ∧
    (normalizeAgentEvent [("source", GoVal.vStr "fw"), ("event_type", GoVal.vStr "conn"),
        ("severity", GoVal.vStr "high")] "ID1" 7).id = "ID1" := by
  have h := normalize_behaviour [("source", GoVal.vStr "fw"), ("event_type", GoVal.vStr "conn"),
    ("severity", GoVal.vStr "high")] "ID1" 7
  exact ⟨h.2.2.2.2.2.2.1 "fw" (by decide), h.2.2.2.2.2.2.2.2.1 "conn" (by decide),
    h.2.2.2.2.2.2.2.2.2 "high" (by decide), h.1⟩

/-- An entry of the Redis-backed threat-intel cache
(`pkg/database/redis.go`, `SetThreatIntel` stores a value with a
`time.Duration` TTL under key `threat:intel:<ip>`).  Redis expiry is
modelled faithfully: `expiresAt` is the absolute nanosecond instant at
which the key dies, and reads at or past it behave as a miss. -/
structure IntelCacheEntry where
  value : String
  expiresAt : Int
deriving Repr, DecidableEq

/-- Redis GET of the threat-intel key for `ip` at instant `now`
(nanoseconds).  An absent or expired key is a miss, which
`GetThreatIntel` surfaces as an empty string (`redis.Nil` is mapped to
`("", nil)`). -/
def cacheGet (c : List (String × IntelCacheEntry)) (ip : String) (now : Int) :
    Option String :=
  match c with
  | [] => none
  | (k, e) :: rest =>
      if k = ip then (if now < e.expiresAt then some e.value else none)
      else cacheGet rest ip now

/-- Redis SET of the threat-intel key for `ip` at instant `now` with a
TTL of `ttlNs` nanoseconds (the unit of Go's `time.Duration`). -/
def cacheSet (c : List (String × IntelCacheEntry)) (ip : String) (v : String)
    (ttlNs now : Int) : List (String × IntelCacheEntry) :=
  match c with
  | [] => [(ip, ⟨v, now + ttlNs⟩)]
  | (k, e) :: rest =>
      if k = ip then (ip, ⟨v, now + ttlNs⟩) :: rest
      else (k, e) :: cacheSet rest ip v ttlNs now

/-- The TTL `CachingProvider.CheckIP` passes to `SetThreatIntel`
(`cmd/sge-enrichment/intel/provider.go` line 55): the untyped constant
`24*60*60` flows into the `ttl time.Duration` parameter, so it is
86400 *nanoseconds* (about 86 µs) — not the 24 hours the adjacent
`// 24h TTL` comment intends. -/
def intelTTLNs : Int := 86400

/-- The external (mock) provider path of `CachingProvider.CheckIP`
(`cmd/sge-enrichment/intel/provider.go`): `1.2.3.4` is malicious and the
verdict is stored with the 86400 ns TTL of `intelTTLNs`; any other IP is
benign and — in the source — nothing is stored. -/
def checkIPExternal (c : List (String × IntelCacheEntry)) (ip : String) (now : Int) :
    Reputation × List (String × IntelCacheEntry) :=
  if ip = "1.2.3.4" then
    ({ ip := ip, score := 100, isMalicious := true, source := "MockDB" },
     cacheSet c ip "malicious" intelTTLNs now)
  else
    ({ ip := ip, score := 0, isMalicious := false, source := "" }, c)

/-- `CachingProvider.CheckIP` at instant `now`: consult the cache first (a
live non-empty value is returned as a malicious verdict with source
`Cache`), otherwise take the external path.  Returns the reputation, the
updated cache and the number of external provider calls made (0 or 1). -/
def checkIP (c : List (String × IntelCacheEntry)) (ip : String) (now : Int) :
    Reputation × List (String × IntelCacheEntry) × Nat :=
  match cacheGet c ip now with
  | some cached =>
      if cached ≠ "" then
        ({ ip := ip, score := 100, isMalicious := true, source := "Cache" }, c, 0)
      else ((checkIPExternal c ip now).1, (checkIPExternal c ip now).2, 1)
  | none => ((checkIPExternal c ip now).1, (checkIPExternal c ip now).2, 1)

/-- Two `CheckIP` lookups of the same IP starting from an empty cache, the
first at instant `t1` and the second at `t2` (nanoseconds): the two
verdicts and the total number of external provider calls. -/
def checkIPTwiceAt (ip : String) (t1 t2 : Int) : Reputation × Reputation × Nat :=
  let r1 := checkIP [] ip t1
  let r2 := checkIP r1.2.1 ip t2
  (r1.1, r2.1, r1.2.2 + r2.2.2)

/-- C6 counterexample: two lookups within 24 hours make two external
calls, not one — for a benign IP (the verdict is never stored), and also
for the malicious `1.2.3.4` when the second lookup comes one second later
(well within 24 h, but past the 86400 ns TTL actually stored). -/
theorem intel_cache_once_cex :
    (checkIPTwiceAt "8.8.8.8" 0 1000).2.2 = 2 ∧
    (checkIPTwiceAt "8.8.8.8" 0 1000).2.2 ≠ 1 ∧
    (checkIPTwiceAt "1.2.3.4" 0 1000000000).2.2 = 2 ∧
    (checkIPTwiceAt "1.2.3.4" 0 1000000000).2.2 ≠ 1 := by
  decide

/-- C6 amended: the cache-once property holds only for a malicious verdict
and only while the stored entry is alive — 86400 nanoseconds, because the
untyped constant `24*60*60` is passed as a `time.Duration`, not the 24
hours the claim (and the source comment) state: a malicious re-lookup at
or past the 86400 ns expiry calls the provider again, and a benign
verdict is never stored, so every benign lookup calls the provider. -/
theorem intel_cache_once_ttl_bug :
    ((checkIPTwiceAt "1.2.3.4" 0 86399).2.2 = 1 ∧
     (checkIPTwiceAt "1.2.3.4" 0 86399).1.isMalicious = true ∧
     (checkIPTwiceAt "1.2.3.4" 0 86399).2.1.isMalicious = true ∧
     (checkIPTwiceAt "1.2.3.4" 0 86399).2.1.source = "Cache") ∧
    (∀ t1 t2 : Int, t1 + intelTTLNs ≤ t2 →
      (checkIPTwiceAt "1.2.3.4" t1 t2).2.2 = 2) ∧
    (∀ (ip : String) (t1 t2 : Int), ip ≠ "1.2.3.4" →
      (checkIPTwiceAt ip t1 t2).2.2 = 2) := by
  refine ⟨by decide, ?_, ?_⟩
  · intro t1 t2 h
    have hdead : ¬ (t2 < t1 + 86400) := by
      simp [intelTTLNs] at h
      omega
    simp [checkIPTwiceAt, checkIP, checkIPExternal, cacheGet, cacheSet,
      intelTTLNs, hdead]
  · intro ip t1 t2 hip
    simp [checkIPTwiceAt, checkIP, checkIPExternal, cacheGet, hip]

/-- Witness for C6: a malicious re-lookup exactly at the 86400 ns expiry
and a benign pair of lookups each make two external calls. -/
theorem intel_cache_once_ttl_bug_witness :
    (checkIPTwiceAt "1.2.3.4" 0 86400).2.2 = 2 ∧
    (checkIPTwiceAt "9.9.9.9" 5 6).2.2 = 2 :=
  ⟨intel_cache_once_ttl_bug.2.1 0 86400 (by simp [intelTTLNs]),
   intel_cache_once_ttl_bug.2.2 "9.9.9.9" 5 6 (by decide)⟩

/-- Correlation rule, from `pkg/models/types.go` (`models.Rule`). -/
structure Rule where
  id : String
  name : String
  condition : String
  severity : String
  enabled : Bool
  actions : List String
deriving Repr, DecidableEq

/-- Set the `Enabled` flag of a rule. -/
def setEnabled (b : Bool) (r : Rule) : Rule := { r with enabled := b }

/-- Go map write `newRules[r.ID] = compiled` in `Engine.LoadRules`,
determinized on an association list. -/
def setRuleEntry {Prog : Type} (m : List (String × Rule × Prog)) (key : String)
    (v : Rule × Prog) : List (String × Rule × Prog) :=
  match m with
  | [] => [(key, v)]
  | (k0, v0) :: rest =>
      if k0 = key then (key, v) :: rest else (k0, v0) :: setRuleEntry rest key v

/-- Loop body of `Engine.LoadRules` (correlation engine): compile the
condition (`expr.Compile`, abstracted by `compile`; `none` = compilation
error, which is logged and skipped) and install the compiled rule under its
id.  The `Enabled` flag is never consulted. -/
def loadStep {Prog : Type} (compile : String → Option Prog)
    (acc : List (String × Rule × Prog)) (r : Rule) : List (String × Rule × Prog) :=
  match compile r.condition with
  | none => acc
  | some p => setRuleEntry acc r.id (r, p)

/-- `Engine.LoadRules`: fold the load step over the rule list starting from
an empty map. -/
def loadRules {Prog : Type} (compile : String → Option Prog) (rules : List Rule) :
    List (String × Rule × Prog) :=
  rules.foldl (loadStep compile) []

/-- Loop body of `Engine.Evaluate`: run the compiled program
(`expr.Run` plus the boolean type assertion, abstracted by `run`; `none`
covers runtime errors and non-boolean outputs, both skipped) and collect
the rule on `true`. -/
def evalStep {Prog : Type} (run : Prog → Event → Option Bool) (evt : Event)
    (ms : List Rule) (e : String × Rule × Prog) : List Rule :=
  match run e.2.2 evt with
  | some true => ms ++ [e.2.1]
  | _ => ms

/-- `Engine.Evaluate`: fold the evaluation step over every installed rule. -/
def evaluate {Prog : Type} (run : Prog → Event → Option Bool)
    (compiled : List (String × Rule × Prog)) (evt : Event) : List Rule :=
  compiled.foldl (evalStep run evt) []

/-- Map the `Enabled` flag over every installed rule of an engine store. -/
def mapCompiledEnabled {Prog : Type} (b : Bool) (l : List (String × Rule × Prog)) :
    List (String × Rule × Prog) :=
  l.map (fun e => (e.1, setEnabled b e.2.1, e.2.2))

/-- Lemma: installing a rule commutes with flipping the Enabled flags. -/
theorem setRuleEntry_mapCompiledEnabled {Prog : Type} (b : Bool)
    (acc : List (String × Rule × Prog)) (key : String) (r : Rule) (p : Prog) :
    setRuleEntry (mapCompiledEnabled b acc) key (setEnabled b r, p)
      = mapCompiledEnabled b (setRuleEntry acc key (r, p)) := by
  induction acc with
  | nil => simp [setRuleEntry, mapCompiledEnabled]
  | cons hd tl ih =>
      obtain ⟨k0, v0⟩ := hd
      by_cases h : k0 = key
      · simp [setRuleEntry, mapCompiledEnabled, h]
      · simp [setRuleEntry, mapCompiledEnabled, h]
        simpa [mapCompiledEnabled] using ih

/-- Lemma: `LoadRules` commutes with flipping the Enabled flags. -/
theorem loadRules_mapEnabled_aux {Prog : Type} (compile : String → Option Prog)
    (b : Bool) :
    ∀ (rules : List Rule) (acc : List (String × Rule × Prog)),
      List.foldl (loadStep compile) (mapCompiledEnabled b acc)
          (rules.map (setEnabled b))
        = mapCompiledEnabled b (List.foldl (loadStep compile) acc rules) := by
  intro rules
  induction rules with
  | nil => intro acc; rfl
  | cons r rs ih =>
      intro acc
      have hstep : loadStep compile (mapCompiledEnabled b acc) (setEnabled b r)
          = mapCompiledEnabled b (loadStep compile acc r) := by
        unfold loadStep
        have hc : (setEnabled b r).condition = r.condition := rfl
        rw [hc]
        cases hcc : compile r.condition with
        | none => rfl
        | some p =>
            have hid : (setEnabled b r).id = r.id := rfl
            rw [hid]
            exact setRuleEntry_mapCompiledEnabled b acc r.id r p
      simp only [List.map_cons, List.foldl_cons, hstep]
      exact ih (loadStep compile acc r)

/-- Lemma: `Evaluate` over a flag-flipped store returns the flag-flipped
matches. -/
theorem evaluate_mapEnabled_aux {Prog : Type} (run : Prog → Event → Option Bool)
    (evt : Event) (b : Bool) :
    ∀ (compiled : List (String × Rule × Prog)) (ms : List Rule),
      List.foldl (evalStep run evt) (ms.map (setEnabled b))
          (mapCompiledEnabled b compiled)
        = (List.foldl (evalStep run evt) ms compiled).map (setEnabled b) := by
  intro compiled
  induction compiled with
  | nil => intro ms; rfl
  | cons e es ih =>
      intro ms
      have hstep : evalStep run evt (ms.map (setEnabled b))
            (e.1, setEnabled b e.2.1, e.2.2)
          = (evalStep run evt ms e).map (setEnabled b) := by
        unfold evalStep
        cases hr : run e.2.2 evt with
        | none => rfl
        | some bv => cases bv <;> simp
      simp only [mapCompiledEnabled, List.map_cons, List.foldl_cons]
      rw [hstep]
      simpa [mapCompiledEnabled] using ih (evalStep run evt ms e)

/-- C10: the correlation engine never consults `Rule.Enabled`: a rule whose
condition compiles is installed even when disabled, a rule that fails to
compile is skipped, and the evaluation outcome is unchanged (up to the flag
carried inside the returned rules) when every rule's Enabled flag is
flipped — a disabled rule matches exactly as an enabled one. -/
theorem engine_ignores_enabled_flag :
    ∀ (Prog : Type) (compile : String → Option Prog)
      (run : Prog → Event → Option Bool)
      (rules : List Rule) (evt : Event) (b : Bool),
      (∀ (r : Rule) (p : Prog), compile r.condition = some p →
        loadRules compile [r] = [(r.id, r, p)]) ∧
      (∀ r : Rule, compile r.condition = none → loadRules compile [r] = []) ∧
      evaluate run (loadRules compile (rules.map (setEnabled b))) evt
        = (evaluate run (loadRules compile rules) evt).map (setEnabled b) := by
  intro Prog compile run rules evt b
  refine ⟨?_, ?_, ?_⟩
  · intro r p h
    simp [loadRules, loadStep, h, setRuleEntry]
  · intro r h
    simp [loadRules, loadStep, h]
  · have h1 : loadRules compile (rules.map (setEnabled b))
        = mapCompiledEnabled b (loadRules compile rules) := by
      have := loadRules_mapEnabled_aux compile b rules []
      simpa [mapCompiledEnabled] using this
    have h2 := evaluate_mapEnabled_aux run evt b (loadRules compile rules) []
    unfold evaluate
    rw [h1]
    simpa using h2

/-- The demo rule loaded by `cmd/sge-correlation/main.go`. -/
def ruleDemo : Rule :=
  { id := "rule-001", name := "Critical Severity Event",
    condition := "Event.Severity == critical", severity := "critical",
    enabled := true, actions := [] }

/-- Witness for C10: with a trivial program type, the demo rule is
installed when compilation succeeds — also with its Enabled flag cleared —
and evaluation commutes with clearing the flag. -/
theorem engine_ignores_enabled_flag_witness :
    loadRules (fun _ => some ()) [setEnabled false ruleDemo]
      = [("rule-001", setEnabled false ruleDemo, ())] ∧
    evaluate (fun _ _ => some true)
        (loadRules (fun _ => some ()) ([ruleDemo].map (setEnabled false))) evtE1
      = (evaluate (fun _ _ => some true)
          (loadRules (fun _ => some ()) [ruleDemo]) evtE1).map (setEnabled false) := by
  have h1 := engine_ignores_enabled_flag Unit (fun _ => some ())
    (fun _ _ => some true) [setEnabled false ruleDemo] evtE1 false
  have h2 := engine_ignores_enabled_flag Unit (fun _ => some ())
    (fun _ _ => some true) [ruleDemo] evtE1 false
  exact ⟨h1.1 (setEnabled false ruleDemo) () rfl, h2.2.2⟩

/-- Exact fraction used to idealize Go `float64` arithmetic in the threat
trackers: an unreduced numerator/denominator pair with non-negative
denominator.  The tracker claims proved below are independent of
floating-point rounding, so exact arithmetic is a faithful idealization. -/
structure GoFloat where
  num : Int
  den : Int
deriving Repr, DecidableEq

/-- Build a fraction, normalizing the sign into the numerator. -/
def fmk (n d : Int) : GoFloat := if d < 0 then ⟨-n, -d⟩ else ⟨n, d⟩

/-- Embed an integer (Go `float64(x)` on an integral value). -/
def ofInt (n : Int) : GoFloat := ⟨n, 1⟩

/-- Fraction addition. -/
def fadd (a b : GoFloat) : GoFloat := ⟨a.num * b.den + b.num * a.den, a.den * b.den⟩

/-- Fraction multiplication. -/
def fmul (a b : GoFloat) : GoFloat := ⟨a.num * b.num, a.den * b.den⟩

/-- Fraction division. -/
def fdiv (a b : GoFloat) : GoFloat := fmk (a.num * b.den) (a.den * b.num)

/-- Fraction strict comparison (denominators non-negative). -/
def fltb (a b : GoFloat) : Bool := a.num * b.den < b.num * a.den

/-- Go `math.Min`. -/
def fminGo (a b : GoFloat) : GoFloat := if fltb b a then b else a

/-- Go `int(x)` conversion: truncation toward zero. -/
def ftrunc (a : GoFloat) : Int := Int.tdiv a.num a.den

/-- A detected threat, from `internal/dpi/protocol_parsers.go`
(`ThreatMatch`).  Only the fields the claims speak about are kept; the
`Description`/`Metadata`/address fields are presentational and omitted. -/
structure ThreatMatch where
  threatType : String
  severity : String
  score : Int
deriving Repr, DecidableEq

/-- Port-scan tracker entry for one source IP
(`internal/dpi/protocol_parsers.go`, `PortScanEntry`); the Go
`map[uint16]bool` port set is a list of ports seen. -/
structure PortScanEntry where
  portSet : List Nat
  uniquePorts : Nat
  firstSeen : Int
  lastSeen : Int
  packets : Nat
  score : Int
deriving Repr, DecidableEq

/-- Entry update of a `PortScanTracker.Check` call for a fixed source IP
(`internal/dpi/protocol_parsers.go`): create the entry on first sight, add
the port to the set (bumping `UniquePorts` when new), refresh `LastSeen`
and the packet counter.  Times are `Int` nanoseconds. -/
def portScanUpdate (st : Option PortScanEntry) (port : Nat) (ts : Int) :
    PortScanEntry :=
  let entry0 : PortScanEntry :=
    match st with
    | none => { portSet := [], uniquePorts := 0, firstSeen := ts, lastSeen := ts,
                packets := 0, score := 0 }
    | some e => e
  let entry1 :=
    if port ∈ entry0.portSet then entry0
    else
      { entry0 with
          portSet := entry0.portSet ++ [port],
          uniquePorts := entry0.uniquePorts + 1 }
  { entry1 with lastSeen := ts, packets := entry1.packets + 1 }

/-- Score of an emitting `PortScanTracker.Check`:
`int(math.Min(100, float64(uniquePorts)*2 + speed*10))` with
`speed = uniquePorts / (elapsed + 1)` and `elapsed` in seconds. -/
def portScanScore (e : PortScanEntry) : Int :=
  ftrunc (fminGo (ofInt 100)
    (fadd (fmul (ofInt (e.uniquePorts : Int)) (ofInt 2))
      (fmul (fdiv (ofInt (e.uniquePorts : Int))
        (fadd (fdiv (ofInt (e.lastSeen - e.firstSeen)) (ofInt 1000000000)) (ofInt 1)))
        (ofInt 10))))

/-- One `PortScanTracker.Check` call for a fixed source IP
(`internal/dpi/protocol_parsers.go`).  Notes kept faithful to the source:
the tracker's `threshold` field is an `int` that the source `switch`es
against the strings `"low"`/`"high"` (the sensitivity-axis inconsistency
the spec flags as an open question); an `int` never equals a string, so
neither case fires and the multiplier stays `1.0`.  A match is returned on
*every* call whose unique-port count exceeds the threshold — there is no
once-only latch.  `cleanOldEntries` (reached only on the no-match path)
evicts the entry only when stale beyond `2×window`; the entry's `lastSeen`
was just set to `ts`, so it survives. -/
def portScanStep (threshold window : Int) (st : Option PortScanEntry) (port : Nat)
    (ts : Int) : Option ThreatMatch × Option PortScanEntry :=
  if fltb (fmul (ofInt threshold) (fmk 1 1))
      (ofInt ((portScanUpdate st port ts).uniquePorts : Int)) then
    (some { threatType := "port_scan", severity := "high",
            score := portScanScore (portScanUpdate st port ts) },
     some { portScanUpdate st port ts with
            score := portScanScore (portScanUpdate st port ts) })
  else
    (none, if (portScanUpdate st port ts).lastSeen < ts - 2 * window then none
           else some (portScanUpdate st port ts))

/-- Feed a packet sequence (destination port, timestamp) through the
port-scan tracker for one source IP, collecting the emitted matches. -/
def portScanRun (threshold window : Int) (packets : List (Nat × Int)) :
    List ThreatMatch × Option PortScanEntry :=
  packets.foldl (fun acc pk =>
    let r := portScanStep threshold window acc.2 pk.1 pk.2
    (acc.1 ++ r.1.toList, r.2)) ([], none)

/-- The seed scenario: 150 packets from one source IP to 150 distinct
destination ports, 10 ms apart (1.49 s total, well within 10 s). -/
def scanPackets : List (Nat × Int) :=
  (List.range 150).map (fun i => (i, (i : Int) * 10000000))

/-- Shape lemma: a `portScanStep` either emits nothing or emits a
`port_scan` match with severity `high`. -/
theorem portScanStep_emit_shape (th w : Int) (st : Option PortScanEntry)
    (port : Nat) (ts : Int) :
    (portScanStep th w st port ts).1 = none ∨
    ∃ sc, (portScanStep th w st port ts).1 = some ⟨"port_scan", "high", sc⟩ := by
  unfold portScanStep
  split
  · right
    exact ⟨_, rfl⟩
  · left
    rfl

/-- C7 counterexample: with the default threshold 100 (config default
`port_threshold`), the 150-packet scan produces 50 matches — one per
packet past the threshold — not exactly one. -/
theorem portscan_not_exactly_one_cex :
    (portScanRun 100 60000000000 scanPackets).1.length = 50 ∧
    (portScanRun 100 60000000000 scanPackets).1.length ≠ 1 := by
  have h : (portScanRun 100 60000000000 scanPackets).1.length = 50 := by decide
  exact ⟨h, by omega⟩

/-- C7 amended: the tracker emits a match on every packet arriving once
the unique-port count exceeds the threshold — 50 matches for the seed
scan at the default threshold 100 — each a `port_scan` with severity
`high` and score `min(100, uniquePorts·2 + ports_per_sec·10 ) = 100 ≥ 60`;
and in general every emitted match is a `port_scan` with severity `high`. -/
theorem portscan_emits_per_packet_above_threshold :
    ((portScanRun 100 60000000000 scanPackets).1.length = 50 ∧
     ∀ m ∈ (portScanRun 100 60000000000 scanPackets).1,
       m.threatType = "port_scan" ∧ m.severity = "high" ∧ m.score = 100 ∧ 60 ≤ m.score) ∧
    (∀ (th w : Int) (st : Option PortScanEntry) (port : Nat) (ts : Int)
       (m : ThreatMatch) (st' : Option PortScanEntry),
       portScanStep th w st port ts = (some m, st') →
       m.threatType = "port_scan" ∧ m.severity = "high") := by
  constructor
  · constructor
    · decide
    · decide
  · intro th w st port ts m st' h
    rcases portScanStep_emit_shape th w st port ts with h0 | ⟨sc, h0⟩
    · rw [h] at h0
      simp at h0
    · rw [h] at h0
      have hm : m = ⟨"port_scan", "high", sc⟩ := by
        injection h0
      rw [hm]
      exact ⟨rfl, rfl⟩

/-- Witness for C7 at a concrete emitting step (threshold 0, first packet). -/
theorem portscan_emits_witness :
    (⟨"port_scan", "high", (12 : Int)⟩ : ThreatMatch).threatType = "port_scan" ∧
    (⟨"port_scan", "high", (12 : Int)⟩ : ThreatMatch).severity = "high" :=
  portscan_emits_per_packet_above_threshold.2 0 60000000000 none 5 0
    ⟨"port_scan", "high", 12⟩ (some ⟨[5], 1, 0, 0, 1, 12⟩) (by decide)

/-- Integer square root by bounded binary search on `lo < hi` with
`lo² ≤ n < hi²` (exact for `n < 2^255`, far beyond any value arising from
int64 durations); idealizes `math.Sqrt` on the beacon variance. -/
def isqrtGo : Nat → Nat → Nat → Nat → Nat
  | 0, lo, _, _ => lo
  | fuel + 1, lo, hi, n =>
      if hi ≤ lo + 1 then lo
      else
        let mid := (lo + hi) / 2
        if mid * mid ≤ n then isqrtGo fuel mid hi n else isqrtGo fuel lo mid n

/-- Integer square root entry point. -/
def isqrt (n : Nat) : Nat := isqrtGo 256 0 (n + 1) n

/-- Beacon tracker entry for one flow key (src, dst, dstPort)
(`internal/dpi/protocol_parsers.go`, `BeaconEntry`).  `StdDev` is stored
in nanoseconds ( Nat) and `Jitter` as the exact ratio σ/μ — the Go source
mixes `time.Duration` and `float64` in these fields (as written the file
does not type-check); the spec's stated semantics (σ in duration units,
jitter = σ/μ) is the evident intent and is what is embedded.  The
`Check` call's `protocol` argument is used only in the emitted match; the
Go struct declares no Protocol field. -/
structure BeaconEntry where
  sourceIP : String
  destIP : String
  destPort : Nat
  intervals : List Int
  lastInterval : Int
  avgInterval : Int
  stdDev : Nat
  firstSeen : Int
  lastSeen : Int
  requestCount : Nat
  responseCount : Nat
  totalBytes : Nat
  score : Int
  jitter : GoFloat
deriving Repr, DecidableEq

/-- `BeaconTracker.analyzeIntervals`: mean by integer Duration division,
variance from exact squared deviations, standard deviation by integer
square root (idealizing `math.Sqrt`), jitter = σ/μ when the mean is
positive, else 0.  Returns (avg, stdDev, jitter). -/
def analyzeIntervals (intervals : List Int) : Int × Nat × GoFloat :=
  if intervals.length = 0 then (0, 0, ofInt 0)
  else
    let n : Int := (intervals.length : Int)
    let sum : Int := intervals.foldl (fun a b => a + b) 0
    let avg : Int := Int.tdiv sum n
    let varianceSum : Int := intervals.foldl (fun a i => a + (i - avg) * (i - avg)) 0
    let stdDev : Nat := isqrt (Int.tdiv varianceSum n).toNat
    let jitter : GoFloat :=
      if 0 < avg then fdiv (ofInt (stdDev : Int)) (ofInt avg) else ofInt 0
    (avg, stdDev, jitter)

/-- `BeaconTracker.calculateBeaconScore`: jitter below 0.1/0.2/0.3 adds
40/30/20; σ below 100 ms/500 ms adds 30/20; request count above 100/50
adds 20/10. -/
def calculateBeaconScore (jitter : GoFloat) (stdDev : Nat) (requestCount : Nat) : Int :=
  (if fltb jitter (fmk 1 10) then 40
   else if fltb jitter (fmk 2 10) then 30
   else if fltb jitter (fmk 3 10) then 20 else 0) +
  (if stdDev < 100000000 then 30
   else if stdDev < 500000000 then 20 else 0) +
  (if requestCount > 100 then 20
   else if requestCount > 50 then 10 else 0)

/-- Entry update of a `BeaconTracker.Check` call for one flow key: create
the entry on first sight; once `FirstSeen ≠ LastSeen` record the
inter-arrival interval, keeping only the last 50; refresh `LastSeen` and
the request counter. -/
def beaconUpdate (srcIP dstIP : String) (dstPort : Nat) (st : Option BeaconEntry)
    (ts : Int) : BeaconEntry :=
  let entry0 : BeaconEntry :=
    match st with
    | none =>
        { sourceIP := srcIP, destIP := dstIP, destPort := dstPort, intervals := [],
          lastInterval := 0, avgInterval := 0, stdDev := 0, firstSeen := ts,
          lastSeen := ts, requestCount := 0, responseCount := 0, totalBytes := 0,
          score := 0, jitter := ofInt 0 }
    | some e => e
  let entry1 :=
    if entry0.firstSeen ≠ entry0.lastSeen then
      let interval := ts - entry0.lastSeen
      let ints0 := entry0.intervals ++ [interval]
      let ints := if ints0.length > 50 then ints0.drop (ints0.length - 50) else ints0
      { entry0 with intervals := ints, lastInterval := interval }
    else entry0
  { entry1 with lastSeen := ts, requestCount := entry1.requestCount + 1 }

/-- The analysis pass of `BeaconTracker.Check` once ≥10 intervals exist:
store mean/σ/jitter in the entry and compute the score from the freshly
stored jitter and σ and the request count. -/
def beaconAnalyze (e : BeaconEntry) : BeaconEntry :=
  { e with
      avgInterval := (analyzeIntervals e.intervals).1,
      stdDev := (analyzeIntervals e.intervals).2.1,
      jitter := (analyzeIntervals e.intervals).2.2,
      score := calculateBeaconScore (analyzeIntervals e.intervals).2.2
        (analyzeIntervals e.intervals).2.1 e.requestCount }

/-- `NewBeaconTracker` hardcodes the minimum emission score 70. -/
def beaconMinScore : Int := 70

/-- `NewBeaconTracker` hardcodes a 5-minute window (nanoseconds). -/
def beaconWindowNs : Int := 300000000000

/-- One `BeaconTracker.Check` call for one flow key
(`internal/dpi/protocol_parsers.go`): update the entry; if at least 10
intervals are recorded, analyze and emit a `c2_beacon` match with severity
`critical` when the score reaches the minimum; otherwise no match.
`cleanOldEntries` (no-match paths) evicts the entry only when stale beyond
`2×window`; its `lastSeen` was just set to `ts`, so it survives. -/
def beaconStep (srcIP dstIP : String) (dstPort : Nat) (st : Option BeaconEntry)
    (ts : Int) : Option ThreatMatch × Option BeaconEntry :=
  if 10 ≤ (beaconUpdate srcIP dstIP dstPort st ts).intervals.length then
    if beaconMinScore ≤ (beaconAnalyze (beaconUpdate srcIP dstIP dstPort st ts)).score then
      (some { threatType := "c2_beacon", severity := "critical",
              score := (beaconAnalyze (beaconUpdate srcIP dstIP dstPort st ts)).score },
       some (beaconAnalyze (beaconUpdate srcIP dstIP dstPort st ts)))
    else
      (none,
       if (beaconAnalyze (beaconUpdate srcIP dstIP dstPort st ts)).lastSeen
           < ts - 2 * beaconWindowNs then none
       else some (beaconAnalyze (beaconUpdate srcIP dstIP dstPort st ts)))
  else
    (none,
     if (beaconUpdate srcIP dstIP dstPort st ts).lastSeen < ts - 2 * beaconWindowNs then
       none
     else some (beaconUpdate srcIP dstIP dstPort st ts))

/-- C8: the beacon tracker never emits before 10 inter-arrival intervals
are recorded for the flow key (fewer than 10 recorded intervals means no
match), and every emitted match is a `c2_beacon` with severity `critical`
and score of at least 70, the score being exactly the composition rule of
`calculateBeaconScore` applied to the stored jitter, standard deviation
and request count. -/
theorem beacon_emission_properties :
    (∀ (srcIP dstIP : String) (dstPort : Nat) (st : Option BeaconEntry) (ts : Int)
       (m : ThreatMatch) (st' : Option BeaconEntry),
       beaconStep srcIP dstIP dstPort st ts = (some m, st') →
       ∃ e, st' = some e ∧ 10 ≤ e.intervals.length ∧
         m.threatType = "c2_beacon" ∧ m.severity = "critical" ∧
         beaconMinScore ≤ m.score ∧
         m.score = calculateBeaconScore e.jitter e.stdDev e.requestCount) ∧
    (∀ (srcIP dstIP : String) (dstPort : Nat) (st : Option BeaconEntry) (ts : Int),
       (beaconUpdate srcIP dstIP dstPort st ts).intervals.length < 10 →
       (beaconStep srcIP dstIP dstPort st ts).1 = none) := by
  constructor
  · intro srcIP dstIP dstPort st ts m st' h
    unfold beaconStep at h
    by_cases hlen : 10 ≤ (beaconUpdate srcIP dstIP dstPort st ts).intervals.length
    · rw [if_pos hlen] at h
      by_cases hsc : beaconMinScore
          ≤ (beaconAnalyze (beaconUpdate srcIP dstIP dstPort st ts)).score
      · rw [if_pos hsc] at h
        injection h with h1 h2
        injection h1 with h1
        refine ⟨beaconAnalyze (beaconUpdate srcIP dstIP dstPort st ts), h2.symm,
          hlen, ?_, ?_, ?_, ?_⟩
        · rw [← h1]
        · rw [← h1]
        · rw [← h1]
          exact hsc
        · rw [← h1]
          rfl
      · rw [if_neg hsc] at h
        exact absurd (congrArg Prod.fst h) (by simp)
    · rw [if_neg hlen] at h
      exact absurd (congrArg Prod.fst h) (by simp)
  · intro srcIP dstIP dstPort st ts h
    unfold beaconStep
    rw [if_neg (by omega)]

/-- A beacon entry with nine recorded one-second intervals, sixty prior
requests, first seen at 0 and last seen at 60 s. -/
def beaconEntryW : BeaconEntry :=
  { sourceIP := "10.0.0.1", destIP := "10.0.0.2", destPort := 443,
    intervals := List.replicate 9 1000000000, lastInterval := 1000000000,
    avgInterval := 0, stdDev := 0, firstSeen := 0, lastSeen := 60000000000,
    requestCount := 60, responseCount := 0, totalBytes := 0, score := 0,
    jitter := ofInt 0 }

/-- Witness for C8: a packet at 61 s records the tenth one-second interval
and the step emits a critical `c2_beacon` with score 80 = 40 + 30 + 10. -/
theorem beacon_emission_properties_witness :
    ∃ e, (some (beaconAnalyze
          (beaconUpdate "10.0.0.1" "10.0.0.2" 443 (some beaconEntryW) 61000000000))
        : Option BeaconEntry) = some e ∧
      10 ≤ e.intervals.length ∧
      (⟨"c2_beacon", "critical", (80 : Int)⟩ : ThreatMatch).threatType = "c2_beacon" ∧
      (⟨"c2_beacon", "critical", (80 : Int)⟩ : ThreatMatch).severity = "critical" ∧
      beaconMinScore ≤ (⟨"c2_beacon", "critical", (80 : Int)⟩ : ThreatMatch).score ∧
      (⟨"c2_beacon", "critical", (80 : Int)⟩ : ThreatMatch).score
        = calculateBeaconScore e.jitter e.stdDev e.requestCount :=
  beacon_emission_properties.1 "10.0.0.1" "10.0.0.2" 443 (some beaconEntryW)
    61000000000 ⟨"c2_beacon", "critical", 80⟩
    (some (beaconAnalyze
      (beaconUpdate "10.0.0.1" "10.0.0.2" 443 (some beaconEntryW) 61000000000)))
    (by decide)

/-- Byte read `payload[i]` with explicit bounds tracking:
`Except.error ()` models the out-of-bounds access (a Go index panic) that
the TLS parser's guards are claimed to prevent. -/
def readB (p : List Nat) (i : Nat) : Except Unit Nat :=
  if i < p.length then Except.ok (p.getD i 0) else Except.error ()

/-- Big-endian 16-bit read `binary.BigEndian.Uint16(payload[i:i+2])`. -/
def readU16 (p : List Nat) (i : Nat) : Except Unit Nat :=
  match readB p i, readB p (i + 1) with
  | Except.ok a, Except.ok b => Except.ok (a * 256 + b)
  | _, _ => Except.error ()

/-- Byte-slice read `payload[i:j]` (panics unless `i ≤ j ≤ len`). -/
def readSlice (p : List Nat) (i j : Nat) : Except Unit (List Nat) :=
  if i ≤ j ∧ j ≤ p.length then Except.ok ((p.drop i).take (j - i))
  else Except.error ()

/-- Lemma: an in-bounds byte read succeeds. -/
theorem readB_ok (p : List Nat) (i : Nat) (h : i < p.length) :
    readB p i = Except.ok (p.getD i 0) := by
  simp [readB, h]

/-- Lemma: an in-bounds 16-bit read succeeds. -/
theorem readU16_ok (p : List Nat) (i : Nat) (h : i + 1 < p.length) :
    readU16 p i = Except.ok (p.getD i 0 * 256 + p.getD (i + 1) 0) := by
  rw [readU16, readB_ok p i (by omega), readB_ok p (i + 1) h]

/-- Lemma: an in-bounds slice read succeeds. -/
theorem readSlice_ok (p : List Nat) (i j : Nat) (h1 : i ≤ j) (h2 : j ≤ p.length) :
    readSlice p i j = Except.ok ((p.drop i).take (j - i)) := by
  simp [readSlice, h1, h2]

/-- Go `unicode/utf8.Valid` on a byte list: standard UTF-8 acceptance with
the Go standard library's first-byte ranges (surrogates and overlong
encodings rejected). -/
def utf8Valid : List Nat → Bool
  | [] => true
  | b :: rest =>
      if b < 128 then utf8Valid rest
      else if 194 ≤ b && b ≤ 223 then
        match rest with
        | c1 :: r => (128 ≤ c1 && c1 ≤ 191) && utf8Valid r
        | [] => false
      else if b = 224 then
        match rest with
        | c1 :: c2 :: r =>
            (160 ≤ c1 && c1 ≤ 191) && (128 ≤ c2 && c2 ≤ 191) && utf8Valid r
        | _ => false
      else if (225 ≤ b && b ≤ 236) || b = 238 || b = 239 then
        match rest with
        | c1 :: c2 :: r =>
            (128 ≤ c1 && c1 ≤ 191) && (128 ≤ c2 && c2 ≤ 191) && utf8Valid r
        | _ => false
      else if b = 237 then
        match rest with
        | c1 :: c2 :: r =>
            (128 ≤ c1 && c1 ≤ 159) && (128 ≤ c2 && c2 ≤ 191) && utf8Valid r
        | _ => false
      else if b = 240 then
        match rest with
        | c1 :: c2 :: c3 :: r =>
            (144 ≤ c1 && c1 ≤ 191) && (128 ≤ c2 && c2 ≤ 191) &&
              (128 ≤ c3 && c3 ≤ 191) && utf8Valid r
        | _ => false
      else if 241 ≤ b && b ≤ 243 then
        match rest with
        | c1 :: c2 :: c3 :: r =>
            (128 ≤ c1 && c1 ≤ 191) && (128 ≤ c2 && c2 ≤ 191) &&
              (128 ≤ c3 && c3 ≤ 191) && utf8Valid r
        | _ => false
      else if b = 244 then
        match rest with
        | c1 :: c2 :: c3 :: r =>
            (128 ≤ c1 && c1 ≤ 143) && (128 ≤ c2 && c2 ≤ 191) &&
              (128 ≤ c3 && c3 ≤ 191) && utf8Valid r
        | _ => false
      else false

/-- Minimal TLS ClientHello extraction
(`cmd/sge-network-sensor/dpi/tls.go`, `TLSClientHello`): the parser only
ever sets `ServerName` (the `Version` field keeps its zero value), with the
SNI kept as its raw bytes. -/
structure TLSClientHello where
  serverName : List Nat
  version : Nat
deriving Repr, DecidableEq

/-- The Server Name extension body of `ParseTLSClientHello`
(`cmd/sge-network-sensor/dpi/tls.go`, extension type 0 branch).  `offset`
is the Go offset just past the 4-byte extension header; `extEnd` the end
of the extensions block; `extLen` the declared extension length.  Checks
in source order: extension fits in the block; list length present (≥2,
then skipped); name type byte inside the block and equal to `host_name`;
2-byte name length inside the block; name length in `1..253`
(`MaxSNILength`); name bytes inside the block; valid UTF-8; no control
byte (`b < 32 ∨ b = 127`). -/
def parseSNIExt (p : List Nat) (offset extEnd extLen : Nat) :
    Except Unit (Option TLSClientHello) :=
  if extEnd < offset + extLen then Except.ok none
  else if extLen < 2 then Except.ok none
  else if extEnd ≤ offset + 2 then Except.ok none
  else
    match readB p (offset + 2) with
    | Except.error e => Except.error e
    | Except.ok nameType =>
      if nameType ≠ 0 then Except.ok none
      else if extEnd < offset + 5 then Except.ok none
      else
        match readU16 p (offset + 3) with
        | Except.error e => Except.error e
        | Except.ok nameLen =>
          if nameLen = 0 ∨ 253 < nameLen then Except.ok none
          else if extEnd < offset + 5 + nameLen then Except.ok none
          else
            match readSlice p (offset + 5) (offset + 5 + nameLen) with
            | Except.error e => Except.error e
            | Except.ok sniBytes =>
              if utf8Valid sniBytes = false then Except.ok none
              else if sniBytes.any (fun b => b < 32 || b = 127) then Except.ok none
              else Except.ok (some { serverName := sniBytes, version := 0 })

/-- Lemma: the SNI-extension branch never crashes when the extensions
block lies inside the payload — every read it makes is guarded. -/
theorem parseSNIExt_isOk (p : List Nat) (offset extEnd extLen : Nat)
    (hlen : extEnd ≤ p.length) :
    ∃ r, parseSNIExt p offset extEnd extLen = Except.ok r := by
  unfold parseSNIExt
  by_cases hA : extEnd < offset + extLen
  · rw [if_pos hA]
    exact ⟨_, rfl⟩
  rw [if_neg hA]
  by_cases hB : extLen < 2
  · rw [if_pos hB]
    exact ⟨_, rfl⟩
  rw [if_neg hB]
  by_cases hC : extEnd ≤ offset + 2
  · rw [if_pos hC]
    exact ⟨_, rfl⟩
  rw [if_neg hC]
  rw [readB_ok p (offset + 2) (by omega)]
  by_cases hD : p.getD (offset + 2) 0 ≠ 0
  · simp only [if_pos hD]
    exact ⟨_, rfl⟩
  simp only [if_neg hD]
  by_cases hE : extEnd < offset + 5
  · rw [if_pos hE]
    exact ⟨_, rfl⟩
  rw [if_neg hE]
  rw [readU16_ok p (offset + 3) (by omega)]
  by_cases hF : p.getD (offset + 3) 0 * 256 + p.getD (offset + 3 + 1) 0 = 0 ∨
      253 < p.getD (offset + 3) 0 * 256 + p.getD (offset + 3 + 1) 0
  · simp only [if_pos hF]
    exact ⟨_, rfl⟩
  simp only [if_neg hF]
  by_cases hG : extEnd < offset + 5 + (p.getD (offset + 3) 0 * 256 + p.getD (offset + 3 + 1) 0)
  · simp only [if_pos hG]
    exact ⟨_, rfl⟩
  simp only [if_neg hG]
  rw [readSlice_ok p (offset + 5)
    (offset + 5 + (p.getD (offset + 3) 0 * 256 + p.getD (offset + 3 + 1) 0))
    (by omega) (by omega)]
  by_cases hH : utf8Valid ((p.drop (offset + 5)).take
      (offset + 5 + (p.getD (offset + 3) 0 * 256 + p.getD (offset + 3 + 1) 0)
        - (offset + 5))) = false
  · simp only [if_pos hH]
    exact ⟨_, rfl⟩
  simp only [if_neg hH]
  by_cases hI : ((p.drop (offset + 5)).take
      (offset + 5 + (p.getD (offset + 3) 0 * 256 + p.getD (offset + 3 + 1) 0)
        - (offset + 5))).any (fun b => b < 32 || b = 127) = true
  · simp only [if_pos hI]
    exact ⟨_, rfl⟩
  simp only [if_neg hI]
  exact ⟨_, rfl⟩

/-- Lemma: whenever the SNI-extension branch succeeds with a hello, the
extracted server name has length in `1..253`, carries no control byte and
is valid UTF-8. -/
theorem parseSNIExt_some_props (p : List Nat) (offset extEnd extLen : Nat)
    (hlen : extEnd ≤ p.length) (hh : TLSClientHello)
    (h : parseSNIExt p offset extEnd extLen = Except.ok (some hh)) :
    1 ≤ hh.serverName.length ∧ hh.serverName.length ≤ 253 ∧
    (∀ b ∈ hh.serverName, 32 ≤ b ∧ b ≠ 127) ∧ utf8Valid hh.serverName = true := by
  unfold parseSNIExt at h
  split at h
  · simp at h
  split at h
  · simp at h
  split at h
  · simp at h
  split at h
  · simp at h
  rename_i nameType hNT
  split at h
  · simp at h
  split at h
  · simp at h
  split at h
  · simp at h
  rename_i nameLen hNL
  split at h
  · simp at h
  split at h
  · simp at h
  split at h
  · simp at h
  rename_i sniBytes hSB
  split at h
  · simp at h
  split at h
  · simp at h
  rename_i hUTF hCTL
  have hhv : hh = { serverName := sniBytes, version := 0 } := by
    injection h with h1
    injection h1 with h1
    exact h1.symm
  subst hhv
  have hlen1 : ¬ (nameLen = 0 ∨ 253 < nameLen) := by assumption
  have hfit : ¬ (extEnd < offset + 5 + nameLen) := by assumption
  have hslice : sniBytes = (p.drop (offset + 5)).take (offset + 5 + nameLen - (offset + 5)) := by
    have := hSB
    rw [readSlice_ok p (offset + 5) (offset + 5 + nameLen) (by omega) (by omega)] at this
    injection this with h2
    exact h2.symm
  have hlength : sniBytes.length = nameLen := by
    rw [hslice]
    simp [List.length_take, List.length_drop]
    omega
  refine ⟨?_, ?_, ?_, ?_⟩
  · show 1 ≤ sniBytes.length
    omega
  · show sniBytes.length ≤ 253
    omega
  · intro b hb
    have hb2 : b ∈ sniBytes := hb
    have hall : ¬ (sniBytes.any (fun b => b < 32 || b = 127) = true) := by
      simpa using hCTL
    rw [List.any_eq_true] at hall
    push_neg at hall
    have hbb := hall b hb2
    simp at hbb
    omega
  · show utf8Valid sniBytes = true
    have hnf : ¬ (utf8Valid sniBytes = false) := hUTF
    revert hnf
    cases utf8Valid sniBytes <;> simp

/-- The extension-iteration loop of `ParseTLSClientHello`: while four
header bytes fit before `extEnd`, read extension type and length; type 0
enters the Server Name branch, any other type skips `extLen` bytes.  The
Go `for` loop always terminates (the offset grows by at least 4); the
structural `fuel` argument mirrors that termination measure and is proven
sufficient in `iterExts_isOk` (running out of fuel is modelled as a crash,
which never happens). -/
def iterExts (p : List Nat) : Nat → Nat → Nat → Except Unit (Option TLSClientHello)
  | 0, _, _ => Except.error ()
  | fuel + 1, offset, extEnd =>
      if offset + 4 ≤ extEnd then
        match readU16 p offset, readU16 p (offset + 2) with
        | Except.ok extType, Except.ok extLen =>
            if extType = 0 then parseSNIExt p (offset + 4) extEnd extLen
            else iterExts p fuel (offset + 4 + extLen) extEnd
        | _, _ => Except.error ()
      else Except.ok none

/-- Lemma: the extension loop never crashes when the extensions block lies
inside the payload and the fuel exceeds the remaining block size. -/
theorem iterExts_isOk (p : List Nat) :
    ∀ (fuel offset extEnd : Nat), extEnd ≤ p.length → extEnd - offset < fuel →
      ∃ r, iterExts p fuel offset extEnd = Except.ok r := by
  intro fuel
  induction fuel with
  | zero =>
      intro offset extEnd _ hf
      omega
  | succ fuel ih =>
      intro offset extEnd hlen hf
      by_cases ho : offset + 4 ≤ extEnd
      · rw [iterExts, if_pos ho]
        rw [readU16_ok p offset (by omega), readU16_ok p (offset + 2) (by omega)]
        by_cases ht : p.getD offset 0 * 256 + p.getD (offset + 1) 0 = 0
        · simp only [if_pos ht]
          exact parseSNIExt_isOk p (offset + 4) extEnd _ hlen
        · simp only [if_neg ht]
          exact ih (offset + 4 + (p.getD (offset + 2) 0 * 256 + p.getD (offset + 2 + 1) 0))
            extEnd hlen (by omega)
      · rw [iterExts, if_neg ho]
        exact ⟨_, rfl⟩

/-- Lemma: whenever the extension loop succeeds with a hello, the server
name satisfies the SNI well-formedness properties. -/
theorem iterExts_some_props (p : List Nat) :
    ∀ (fuel offset extEnd : Nat), extEnd ≤ p.length →
      ∀ hh : TLSClientHello, iterExts p fuel offset extEnd = Except.ok (some hh) →
      1 ≤ hh.serverName.length ∧ hh.serverName.length ≤ 253 ∧
      (∀ b ∈ hh.serverName, 32 ≤ b ∧ b ≠ 127) ∧ utf8Valid hh.serverName = true := by
  intro fuel
  induction fuel with
  | zero =>
      intro offset extEnd _ hh h
      rw [iterExts] at h
      exact absurd h (by simp)
  | succ fuel ih =>
      intro offset extEnd hlen hh h
      rw [iterExts] at h
      split at h
      · split at h
        · rename_i extType extLen hq1 hq2
          split at h
          · exact parseSNIExt_some_props p (offset + 4) extEnd extLen hlen hh h
          · exact ih (offset + 4 + extLen) extEnd hlen hh h
        · exact absurd h (by simp)
      · exact absurd h (by simp)

/-- Truncation of the inspected payload to `MaxTLSPayloadSize` (16384)
bytes, from the head of `ParseTLSClientHello`. -/
def truncPayload (payload0 : List Nat) : List Nat :=
  if 16384 < payload0.length then payload0.take 16384 else payload0

/-- Lemma: the truncated payload's length. -/
theorem truncPayload_length (payload0 : List Nat) :
    (truncPayload payload0).length
      = if 16384 < payload0.length then 16384 else payload0.length := by
  unfold truncPayload
  split
  · simp
    omega
  · rfl

/-- `ParseTLSClientHello` (`cmd/sge-network-sensor/dpi/tls.go`): reject
payloads under `MinTLSHelloSize` (43); truncate to 16384 bytes; check
record type 22 (handshake), record major version 3, handshake type 1
(ClientHello); skip record header, handshake header, client version and
random (offset 43); read session-id length, cipher-suites length,
compression length and extensions length with the source's bound checks
(offsets written out: after the session id the offset is
`44+s`, after cipher suites `46+s+c`, after compression `47+s+c+cm`, and
the extensions start at `49+s+c+cm`); finally iterate the extensions.
`Except.ok none` is Go's `(nil, false)`; `Except.error ()` marks an
out-of-bounds access, proven unreachable. -/
def parseTLSClientHello (payload0 : List Nat) : Except Unit (Option TLSClientHello) :=
  if payload0.length < 43 then Except.ok none
  else
    match readB (truncPayload payload0) 0 with
    | Except.error e => Except.error e
    | Except.ok b0 =>
      if b0 ≠ 22 then Except.ok none
      else
        match readB (truncPayload payload0) 1 with
        | Except.error e => Except.error e
        | Except.ok b1 =>
          if b1 ≠ 3 then Except.ok none
          else
            match readB (truncPayload payload0) 5 with
            | Except.error e => Except.error e
            | Except.ok b5 =>
              if b5 ≠ 1 then Except.ok none
              else
                if (truncPayload payload0).length ≤ 43 then Except.ok none
                else
                  match readB (truncPayload payload0) 43 with
                  | Except.error e => Except.error e
                  | Except.ok s =>
                    if (truncPayload payload0).length ≤ 46 + s then Except.ok none
                    else
                      match readU16 (truncPayload payload0) (44 + s) with
                      | Except.error e => Except.error e
                      | Except.ok c =>
                        if (truncPayload payload0).length ≤ 47 + s + c then
                          Except.ok none
                        else
                          match readB (truncPayload payload0) (46 + s + c) with
                          | Except.error e => Except.error e
                          | Except.ok cm =>
                            if (truncPayload payload0).length ≤ 49 + s + c + cm then
                              Except.ok none
                            else
                              match readU16 (truncPayload payload0) (47 + s + c + cm) with
                              | Except.error e => Except.error e
                              | Except.ok extLen =>
                                if (truncPayload payload0).length
                                    < 49 + s + c + cm + extLen then
                                  Except.ok none
                                else
                                  iterExts (truncPayload payload0)
                                    (49 + s + c + cm + extLen + 1)
                                    (49 + s + c + cm)
                                    (49 + s + c + cm + extLen)

/-- Lemma: `ParseTLSClientHello` never crashes — every byte access is
guarded, on arbitrary input. -/
theorem parseTLSClientHello_isOk (payload0 : List Nat) :
    ∃ r, parseTLSClientHello payload0 = Except.ok r := by
  unfold parseTLSClientHello
  by_cases h0 : payload0.length < 43
  · rw [if_pos h0]
    exact ⟨_, rfl⟩
  rw [if_neg h0]
  have hL : 43 ≤ (truncPayload payload0).length := by
    rw [truncPayload_length]
    split <;> omega
  rw [readB_ok (truncPayload payload0) 0 (by omega)]
  by_cases hb0 : (truncPayload payload0).getD 0 0 ≠ 22
  · simp only [if_pos hb0]
    exact ⟨_, rfl⟩
  simp only [if_neg hb0]
  rw [readB_ok (truncPayload payload0) 1 (by omega)]
  by_cases hb1 : (truncPayload payload0).getD 1 0 ≠ 3
  · simp only [if_pos hb1]
    exact ⟨_, rfl⟩
  simp only [if_neg hb1]
  rw [readB_ok (truncPayload payload0) 5 (by omega)]
  by_cases hb5 : (truncPayload payload0).getD 5 0 ≠ 1
  · simp only [if_pos hb5]
    exact ⟨_, rfl⟩
  simp only [if_neg hb5]
  by_cases h43 : (truncPayload payload0).length ≤ 43
  · rw [if_pos h43]
    exact ⟨_, rfl⟩
  rw [if_neg h43]
  rw [readB_ok (truncPayload payload0) 43 (by omega)]
  by_cases hs : (truncPayload payload0).length ≤ 46 + (truncPayload payload0).getD 43 0
  · simp only [if_pos hs]
    exact ⟨_, rfl⟩
  simp only [if_neg hs]
  rw [readU16_ok (truncPayload payload0) (44 + (truncPayload payload0).getD 43 0) (by omega)]
  by_cases hc : (truncPayload payload0).length
      ≤ 47 + (truncPayload payload0).getD 43 0
        + ((truncPayload payload0).getD (44 + (truncPayload payload0).getD 43 0) 0 * 256
          + (truncPayload payload0).getD (44 + (truncPayload payload0).getD 43 0 + 1) 0)
  · simp only [if_pos hc]
    exact ⟨_, rfl⟩
  simp only [if_neg hc]
  rw [readB_ok (truncPayload payload0)
    (46 + (truncPayload payload0).getD 43 0
      + ((truncPayload payload0).getD (44 + (truncPayload payload0).getD 43 0) 0 * 256
        + (truncPayload payload0).getD (44 + (truncPayload payload0).getD 43 0 + 1) 0))
    (by omega)]
  by_cases hcm : (truncPayload payload0).length
      ≤ 49 + (truncPayload payload0).getD 43 0
        + ((truncPayload payload0).getD (44 + (truncPayload payload0).getD 43 0) 0 * 256
          + (truncPayload payload0).getD (44 + (truncPayload payload0).getD 43 0 + 1) 0)
        + (truncPayload payload0).getD
            (46 + (truncPayload payload0).getD 43 0
              + ((truncPayload payload0).getD (44 + (truncPayload payload0).getD 43 0) 0 * 256
                + (truncPayload payload0).getD
                    (44 + (truncPayload payload0).getD 43 0 + 1) 0)) 0
  · simp only [if_pos hcm]
    exact ⟨_, rfl⟩
  simp only [if_neg hcm]
  rw [readU16_ok (truncPayload payload0)
    (47 + (truncPayload payload0).getD 43 0
      + ((truncPayload payload0).getD (44 + (truncPayload payload0).getD 43 0) 0 * 256
        + (truncPayload payload0).getD (44 + (truncPayload payload0).getD 43 0 + 1) 0)
      + (truncPayload payload0).getD
          (46 + (truncPayload payload0).getD 43 0
            + ((truncPayload payload0).getD (44 + (truncPayload payload0).getD 43 0) 0 * 256
              + (truncPayload payload0).getD
                  (44 + (truncPayload payload0).getD 43 0 + 1) 0)) 0)
    (by omega)]
  simp only []
  split
  · exact ⟨_, rfl⟩
  · exact iterExts_isOk (truncPayload payload0) _ _ _ (by omega) (by omega)

/-- Lemma: a 43-byte payload (the minimum accepted size) always yields
"no SNI" without a crash, whatever its bytes. -/
theorem parseTLSClientHello_len43 (payload0 : List Nat)
    (h43 : payload0.length = 43) :
    parseTLSClientHello payload0 = Except.ok none := by
  unfold parseTLSClientHello
  rw [if_neg (by omega)]
  have hPeq : truncPayload payload0 = payload0 := by
    unfold truncPayload
    rw [if_neg (by omega)]
  rw [hPeq]
  rw [readB_ok payload0 0 (by omega)]
  by_cases hb0 : payload0.getD 0 0 ≠ 22
  · simp only [if_pos hb0]
  simp only [if_neg hb0]
  rw [readB_ok payload0 1 (by omega)]
  by_cases hb1 : payload0.getD 1 0 ≠ 3
  · simp only [if_pos hb1]
  simp only [if_neg hb1]
  rw [readB_ok payload0 5 (by omega)]
  by_cases hb5 : payload0.getD 5 0 ≠ 1
  · simp only [if_pos hb5]
  simp only [if_neg hb5]
  rw [if_pos (by omega)]

/-- Lemma: whenever `ParseTLSClientHello` succeeds with a hello, the
server name satisfies the SNI well-formedness properties. -/
theorem parseTLSClientHello_some_props (payload0 : List Nat) (hh : TLSClientHello)
    (h : parseTLSClientHello payload0 = Except.ok (some hh)) :
    1 ≤ hh.serverName.length ∧ hh.serverName.length ≤ 253 ∧
    (∀ b ∈ hh.serverName, 32 ≤ b ∧ b ≠ 127) ∧ utf8Valid hh.serverName = true := by
  unfold parseTLSClientHello at h
  split at h
  · exact absurd h (by simp)
  split at h
  · exact absurd h (by simp)
  split at h
  · exact absurd h (by simp)
  split at h
  · exact absurd h (by simp)
  split at h
  · exact absurd h (by simp)
  split at h
  · exact absurd h (by simp)
  split at h
  · exact absurd h (by simp)
  split at h
  · exact absurd h (by simp)
  split at h
  · exact absurd h (by simp)
  split at h
  · exact absurd h (by simp)
  split at h
  · exact absurd h (by simp)
  split at h
  · exact absurd h (by simp)
  split at h
  · exact absurd h (by simp)
  split at h
  · exact absurd h (by simp)
  split at h
  · exact absurd h (by simp)
  split at h
  · exact absurd h (by simp)
  exact iterExts_some_props (truncPayload payload0) _ _ _ (by omega) hh h

/-- C9: `ParseTLSClientHello` is total on arbitrary byte inputs (it never
reaches an unguarded access), returns "no SNI" without error on every
43-byte payload, and whenever it extracts an SNI the name's declared
length was between 1 and 253, every byte is printable (no byte below 32,
none equal to 127) and the bytes are valid UTF-8 — oversized declared
lengths (such as 254), control bytes and out-of-record lengths are all
rejected. -/
theorem tls_parser_safety :
    ∀ payload : List Nat,
      (∃ r, parseTLSClientHello payload = Except.ok r) ∧
      (payload.length = 43 → parseTLSClientHello payload = Except.ok none) ∧
      (∀ hh : TLSClientHello, parseTLSClientHello payload = Except.ok (some hh) →
        1 ≤ hh.serverName.length ∧ hh.serverName.length ≤ 253 ∧
        (∀ b ∈ hh.serverName, 32 ≤ b ∧ b ≠ 127) ∧ utf8Valid hh.serverName = true) :=
  fun payload =>
    ⟨parseTLSClientHello_isOk payload,
     fun h => parseTLSClientHello_len43 payload h,
     fun hh h => parseTLSClientHello_some_props payload hh h⟩

/-- A complete 72-byte ClientHello whose SNI extension encodes
`example.com`. -/
def helloBytes : List Nat :=
  [22, 3, 1, 0, 0, 1, 0, 0, 0, 3, 3] ++ List.replicate 32 0 ++
  [0, 0, 2, 0, 0, 1, 0, 0, 20, 0, 0, 0, 16, 0, 14, 0, 0, 11,
   101, 120, 97, 109, 112, 108, 101, 46, 99, 111, 109]

/-- Witness for C9: a 43-byte all-zero payload parses to "no SNI", and the
concrete `example.com` ClientHello parses successfully with a well-formed
name. -/
theorem tls_parser_safety_witness :
    parseTLSClientHello (List.replicate 43 0) = Except.ok none ∧
    (1 ≤ (TLSClientHello.mk [101, 120, 97, 109, 112, 108, 101, 46, 99, 111, 109] 0).serverName.length ∧
     (TLSClientHello.mk [101, 120, 97, 109, 112, 108, 101, 46, 99, 111, 109] 0).serverName.length ≤ 253 ∧
     (∀ b ∈ (TLSClientHello.mk [101, 120, 97, 109, 112, 108, 101, 46, 99, 111, 109] 0).serverName,
        32 ≤ b ∧ b ≠ 127) ∧
     utf8Valid (TLSClientHello.mk [101, 120, 97, 109, 112, 108, 101, 46, 99, 111, 109] 0).serverName
       = true) :=
  ⟨(tls_parser_safety (List.replicate 43 0)).2.1 (by decide),
   (tls_parser_safety helloBytes).2.2
     (TLSClientHello.mk [101, 120, 97, 109, 112, 108, 101, 46, 99, 111, 109] 0) (by rfl)⟩

end SakinGo
